import Mathlib

/-!
Verification of the `syz-logparser` CLI (`tools/syz-logparser/logparser.go`)
against its natural-language specification.

The CLI drives a crash-report extraction core (`pkg/report`) that is not part
of this checkout; following the spec, the core is modelled abstractly: a
`Reporter` carries an opaque single-parse scan function and an opaque
whole-buffer suppression predicate, and `ParseAll` is the iteration protocol
of spec §4.6 (repeat single parse from the previous report's resume
position).  Everything else — flag defaults, argument checking, config/target
resolution, report serialization, JSON and human-readable output — is
translated directly from `logparser.go`.

Log buffers (Go `[]byte`) are modelled as `List Char`; byte offsets as `Nat`.
-/

/-- Modelled from the spec: opaque metadata about the fuzzing executor
process active at crash time, passed through unmodified when present
(`report.ExecutorInfo`; its internals are not visible to the CLI). -/
structure ExecutorInfo where
  info : String
deriving DecidableEq, Repr

/-- The fields of `report.Report` that `logparser.go` reads, per the spec's
data model (§3).  `type_` is the string rendering `rep.Type.String()` of the
closed crash-type tag; `report` is the raw body bytes. -/
structure Report where
  title : String
  altTitles : List String
  type_ : String
  frame : String
  startPos : Nat
  endPos : Nat
  skipPos : Nat
  suppressed : Bool
  corrupted : Bool
  corruptedReason : String
  executor : Option ExecutorInfo
  report : List Char
deriving DecidableEq, Repr

/-- Modelled from the spec: a `Reporter` binds a target's pattern registry and
exposes the scan-classify-annotate pass.  `parseFrom buf pos` is the single
parse attempt scanning forward from byte offset `pos` (§4.6 `Scanning ->
Matched -> Annotated` or `Scanning -> NoMatch`); `suppress` is the
whole-buffer suppression pre-check `isSuppressed(reporter, buffer)` (§4.5). -/
structure Reporter where
  parseFrom : List Char → Nat → Option Report
  suppress : List Char → Bool

/-- Modelled from the spec: `reporter.Parse(buffer)` returns at most one
report — the earliest in the buffer, i.e. the single-parse pass started at
offset 0. -/
def Reporter.Parse (rep : Reporter) (logData : List Char) : Option Report :=
  rep.parseFrom logData 0

/-- Fuel-bounded loop of the §4.6 iteration protocol: repeat the single-parse
pass, each iteration starting at the previous report's `skipPos`.  The spec
guarantees termination in at most `len(buffer)` iterations; the fuel makes
that bound explicit. -/
def parseAllAux (rep : Reporter) (logData : List Char) : Nat → Nat → List Report
  | 0, _ => []
  | fuel + 1, pos =>
    match rep.parseFrom logData pos with
    | none => []
    | some r => r :: parseAllAux rep logData fuel r.skipPos

/-- Modelled from the spec: `report.ParseAll(reporter, buffer)` — repeatedly
invokes the single-parse sequence starting each iteration at the previous
result's `skipPos` (initial position 0), terminating when a parse attempt
yields none. -/
def ParseAll (rep : Reporter) (logData : List Char) : List Report :=
  parseAllAux rep logData (logData.length + 1) 0

/-- Modelled from the spec: `report.IsSuppressed(reporter, buffer)`, the
whole-buffer suppression check used when no report was found. -/
def IsSuppressed (rep : Reporter) (logData : List Char) : Bool :=
  rep.suppress logData

/-- Function `parseReports` from `logparser.go`: with `-all` return
`report.ParseAll(reporter, logData)`; otherwise return the single result of
`reporter.Parse(logData)` as a one-element list, or the empty list when it
yields none. -/
def parseReports (flagAll : Bool) (reporter : Reporter) (logData : List Char) :
    List Report :=
  if flagAll then
    ParseAll reporter logData
  else
    match reporter.Parse logData with
    | some rep => [rep]
    | none => []

/-! ## JSON values and the Go encoder with `SetIndent("", "  ")` -/

/-- JSON values, as produced by Go's `encoding/json` for the fields of
`serializedReport`. -/
inductive JVal where
  | str (s : String)
  | int (n : Int)
  | bool (b : Bool)
  | arr (xs : List JVal)
  | obj (fields : List (String × JVal))

/-- Lower-case hex digit of `n < 16`. -/
def hexDigit (n : Nat) : String :=
  String.singleton (Char.ofNat (if n < 10 then 48 + n else 87 + n))

/-- One character of Go `encoding/json` string escaping (HTML escaping on,
the encoder default): quote, backslash, newline, carriage return and tab get
two-character escapes, `<`, `>`, `&` and remaining control characters get
`\uXXXX` escapes, everything else passes through. -/
def escapeChar (c : Char) : String :=
  if c = '"' then "\\\""
  else if c = '\\' then "\\\\"
  else if c = '\n' then "\\n"
  else if c = '\r' then "\\r"
  else if c = '\t' then "\\t"
  else if c = '<' then "\\u003c"
  else if c = '>' then "\\u003e"
  else if c = '&' then "\\u0026"
  else if c.toNat < 32 then "\\u00" ++ hexDigit (c.toNat / 16) ++ hexDigit (c.toNat % 16)
  else String.singleton c

/-- Go `encoding/json` string escaping, character by character. -/
def escapeString (s : String) : String :=
  String.join (s.toList.map escapeChar)

/-- The whitespace written after a newline at nesting depth `d` by a Go
encoder configured with `SetIndent(pre, ind)`: the prefix followed by `d`
copies of the indent unit. -/
def indentAt (pre ind : String) (d : Nat) : String :=
  pre ++ String.join (List.replicate d ind)

mutual

/-- Rendering of a JSON value by a Go `json.Encoder` configured with
`SetIndent(pre, ind)`, at nesting depth `d`.  Empty arrays and objects render
inline; non-empty ones put each element on its own indented line. -/
def renderJ (pre ind : String) (d : Nat) : JVal → String
  | .str s => "\"" ++ escapeString s ++ "\""
  | .int n => toString n
  | .bool b => Bool.rec "false" "true" b
  | .arr xs => renderArr pre ind d xs
  | .obj fs => renderObj pre ind d fs

/-- Array rendering for `renderJ`. -/
def renderArr (pre ind : String) (d : Nat) : List JVal → String
  | [] => "[]"
  | x :: xs =>
    "[\n" ++ indentAt pre ind (d + 1) ++ renderJ pre ind (d + 1) x ++
      renderArrTail pre ind (d + 1) xs ++ "\n" ++ indentAt pre ind d ++ "]"

/-- Remaining array elements, each preceded by `",\n"` and indentation. -/
def renderArrTail (pre ind : String) (d : Nat) : List JVal → String
  | [] => ""
  | x :: xs => ",\n" ++ indentAt pre ind d ++ renderJ pre ind d x ++ renderArrTail pre ind d xs

/-- Object rendering for `renderJ`; each member is `"key": value`. -/
def renderObj (pre ind : String) (d : Nat) : List (String × JVal) → String
  | [] => "\x7b\x7d"
  | f :: fs =>
    "\x7b\n" ++ indentAt pre ind (d + 1) ++ "\"" ++ escapeString f.1 ++ "\": " ++
      renderJ pre ind (d + 1) f.2 ++ renderObjTail pre ind (d + 1) fs ++ "\n" ++
      indentAt pre ind d ++ "\x7d"

/-- Remaining object members, each preceded by `",\n"` and indentation. -/
def renderObjTail (pre ind : String) (d : Nat) : List (String × JVal) → String
  | [] => ""
  | f :: fs =>
    ",\n" ++ indentAt pre ind d ++ "\"" ++ escapeString f.1 ++ "\": " ++
      renderJ pre ind d f.2 ++ renderObjTail pre ind d fs

end

/-! ## `serializedReport` and `emitJSON` -/

/-- The JSON object Go marshals for one `serializedReport` value: the fields
in struct declaration order, with `omitempty` dropping `alt_titles` when the
slice is empty, `frame` and `corrupted_reason` when the string is empty, and
`executor` when the pointer is nil. -/
def serializeReport (r : Report) : List (String × JVal) :=
  [("title", JVal.str r.title)]
  ++ (if r.altTitles.isEmpty then [] else [("alt_titles", JVal.arr (r.altTitles.map JVal.str))])
  ++ [("type", JVal.str r.type_)]
  ++ (if r.frame = "" then [] else [("frame", JVal.str r.frame)])
  ++ [("start_pos", JVal.int r.startPos),
      ("end_pos", JVal.int r.endPos),
      ("skip_pos", JVal.int r.skipPos),
      ("suppressed", JVal.bool r.suppressed),
      ("corrupted", JVal.bool r.corrupted)]
  ++ (if r.corruptedReason = "" then [] else [("corrupted_reason", JVal.str r.corruptedReason)])
  ++ (match r.executor with
      | none => []
      | some e => [("executor", JVal.obj [("info", JVal.str e.info)])])
  ++ [("report", JVal.str (String.mk r.report))]

/-- The JSON value `emitJSON` encodes: one object per report, in order. -/
def emitJSONValue (reports : List Report) : JVal :=
  JVal.arr (reports.map fun r => JVal.obj (serializeReport r))

/-- Function `emitJSON` from `logparser.go`: encode the array of serialized reports to
stdout with `enc.SetIndent("", "  ")`; `Encode` terminates the output with a
newline. -/
def emitJSON (reports : List Report) : String :=
  renderJ "" "  " 0 (emitJSONValue reports) ++ "\n"

/-! ## `printHuman` -/

/-- The body section printed for one report by `printHuman`, with the
last-byte access `body[len(body)-1]` made explicit as a checked lookup:
`none` models an out-of-bounds index panic.  On the empty branch the code
prints `(empty report body)` and performs no access; otherwise it writes the
body and appends a newline when the last byte is not `'\n'`. -/
def bodySectionChecked (body : List Char) : Option String :=
  if body.length = 0 then
    some "(empty report body)\n"
  else
    match body.get? (body.length - 1) with
    | none => none
    | some c => some (String.mk body ++ (if c ≠ '\n' then "\n" else ""))

/-- The body section printed for one report by `printHuman`. -/
def bodySection (body : List Char) : String :=
  (bodySectionChecked body).getD ""

/-- One `Crash #N` block of `printHuman` (`N = idx + 1`): labeled field
lines — `Alt titles` only when non-empty, `Frame` only when non-empty, the
corruption reason parenthesized after `Corrupted` when non-empty — a blank
line, then the body section. -/
def humanBlock (idx : Nat) (r : Report) : String :=
  "Crash #" ++ toString (idx + 1) ++ "\n" ++
  "Title: " ++ r.title ++ "\n" ++
  "Type: " ++ r.type_ ++ "\n" ++
  (if 0 < r.altTitles.length then "Alt titles: " ++ String.intercalate ", " r.altTitles ++ "\n" else "") ++
  (if r.frame ≠ "" then "Frame: " ++ r.frame ++ "\n" else "") ++
  "Range: [" ++ toString r.startPos ++ ", " ++ toString r.endPos ++ "], next " ++
    toString r.skipPos ++ "\n" ++
  "Suppressed: " ++ (if r.suppressed then "true" else "false") ++ "\n" ++
  "Corrupted: " ++ (if r.corrupted then "true" else "false") ++
  (if r.corruptedReason ≠ "" then " (" ++ r.corruptedReason ++ ")" else "") ++
  "\n\n" ++
  bodySection r.report

/-- The indexed loop of `printHuman`: after each block except the last
(`idx+1 < total`), a `---` divider framed by blank lines is printed. -/
def printHumanAux (idx total : Nat) : List Report → String
  | [] => ""
  | r :: rs =>
    humanBlock idx r ++ (if idx + 1 < total then "\n---\n\n" else "") ++
      printHumanAux (idx + 1) total rs

/-- Function `printHuman` from `logparser.go`. -/
def printHuman (reports : List Report) : String :=
  printHumanAux 0 reports.length reports

/-! ## Flags, configuration and the `main` pipeline -/

/-- The `targets.Linux` constant of the target registry (the project's
reference OS; the registry itself is outside this checkout). -/
def targetsLinux : String := "linux"

/-- The command-line flags of the tool. -/
structure Flags where
  os : String
  arch : String
  config : String
  json : Bool
  all : Bool

/-- The flag defaults declared in `logparser.go`, as a function of the host
architecture `runtime.GOARCH`: `-os` defaults to `targets.Linux`, `-arch` to
`runtime.GOARCH`, `-config` to the empty string, `-json` and `-all` to
false. -/
def defaultFlags (hostArch : String) : Flags :=
  { os := targetsLinux, arch := hostArch, config := "", json := false, all := false }

/-- The only field of `mgrconfig.Config` that `loadReporterConfig` reads
after loading a settings file. -/
structure MgrConfig where
  rawTarget : String

/-- Call `mgrconfig.DefaultValues()` as far as this tool observes it: the raw
target starts out empty. -/
def defaultMgrConfig : MgrConfig :=
  { rawTarget := "" }

/-- Modelled from the spec: an entry of the target registry
(`targets.Get`); opaque to the CLI. -/
structure SysTarget where
  name : String

/-- The configuration `loadReporterConfig` returns: the normalized raw
target and the derived target fields. -/
structure OutConfig where
  rawTarget : String
  targetOS : String
  targetArch : String
  targetVMArch : String
  sysTarget : SysTarget

/-- Accumulator loop of Go `strings.Split` for a one-character separator:
collect the characters of the current field until the separator, emitting a
field at each separator and the remainder at the end of the string. -/
def splitSepAux (sep : Char) : List Char → List Char → List (List Char)
  | [], acc => [acc.reverse]
  | c :: rest, acc =>
    if c = sep then acc.reverse :: splitSepAux sep rest []
    else splitSepAux sep rest (c :: acc)

/-- Go `strings.Split(s, sep)` for the one-character separator the tool uses
(`"/"`): the substrings between occurrences of the separator; `[""]` for the
empty string. -/
def goSplit (s : String) (sep : Char) : List String :=
  (splitSepAux sep s.toList []).map String.mk

/-- The target-triple computation inside `loadReporterConfig`: start from
the flag values `(*flagOS, *flagArch, *flagArch)`; when the loaded raw
target is non-empty and splits on `/` into at least two parts, override with
`(parts[0], parts[1], parts[len(parts)-1])`. -/
def resolveTarget (flagOS flagArch rawTarget : String) : String × String × String :=
  let targetOS := flagOS
  let targetVMArch := flagArch
  let targetArch := flagArch
  if rawTarget ≠ "" then
    let parts := goSplit rawTarget '/'
    if 2 ≤ parts.length then
      (parts.getD 0 "", parts.getD 1 "", parts.getD (parts.length - 1) "")
    else
      (targetOS, targetVMArch, targetArch)
  else
    (targetOS, targetVMArch, targetArch)

/-- The environment `main` runs in: the positional-argument count, the flag
values, and the outcomes of the external calls it makes —
`config.LoadFile` (per settings-file path), `targets.Get`,
`report.NewReporter`, and reading the log file. -/
structure Env where
  nargs : Nat
  flags : Flags
  loadFile : String → Except String MgrConfig
  targetsGet : String → String → Option SysTarget
  newReporter : OutConfig → Except String Reporter
  readFile : Except String (List Char)

/-- Function `loadReporterConfig` from `logparser.go`, instrumented with the number
of `config.LoadFile` invocations: load the settings file only when
`-config` is non-empty, resolve the target triple, fail when `targets.Get`
knows no such pair, and otherwise return the config with the normalized raw
target and derived fields filled in. -/
def loadReporterConfigT (env : Env) : Except String OutConfig × Nat :=
  let loaded : Except String MgrConfig × Nat :=
    if env.flags.config ≠ "" then (env.loadFile env.flags.config, 1)
    else (Except.ok defaultMgrConfig, 0)
  match loaded with
  | (Except.error e, lc) => (Except.error e, lc)
  | (Except.ok cfg, lc) =>
    let triple := resolveTarget env.flags.os env.flags.arch cfg.rawTarget
    match env.targetsGet triple.1 triple.2.1 with
    | none => (Except.error ("unknown target: " ++ triple.1 ++ "/" ++ triple.2.1), lc)
    | some st =>
      (Except.ok
        { rawTarget := triple.1 ++ "/" ++ triple.2.1
          targetOS := triple.1
          targetArch := triple.2.2
          targetVMArch := triple.2.1
          sysTarget := st }, lc)

/-- Function `loadReporterConfig` from `logparser.go`. -/
def loadReporterConfig (env : Env) : Except String OutConfig :=
  (loadReporterConfigT env).1

/-- Everything `main` does after a reporter and the log data are in hand:
the string written to stdout, paired with whether `report.IsSuppressed` was
invoked.  Zero reports: `[]` in JSON mode, otherwise the no-reports line
plus a note line when the suppression check matches.  Otherwise `emitJSON`
or `printHuman`. -/
def runMain (flagJSON flagAll : Bool) (reporter : Reporter) (logData : List Char) :
    String × Bool :=
  let reports := parseReports flagAll reporter logData
  if reports.isEmpty then
    if flagJSON then
      ("[]\n", false)
    else
      ("no crash reports found in log\n" ++
        (if IsSuppressed reporter logData then
          "note: log matched suppression patterns for this target\n"
        else ""), true)
  else if flagJSON then
    (emitJSON reports, false)
  else
    (printHuman reports, false)

/-- How a run of `main` ends.  `usageExit` models `flag.Usage(); os.Exit(1)`;
`fatal` models `tool.Failf`, which reports the error to the operator and
exits the process with the non-zero code 1 (modelled from the spec:
configuration and input I/O errors are fatal and exit non-zero). -/
inductive MainOutcome where
  | usageExit (code : Nat)
  | fatal (code : Nat) (phase : String)
  | ran (stdout : String)

/-- Invocation counts of the fallible external steps and of the parse and
suppression-check machinery, recorded alongside the outcome. -/
structure Trace where
  loadFileCalls : Nat
  newReporterCalls : Nat
  readFileCalls : Nat
  parseCalls : Nat
  suppressedCheckCalls : Nat

/-- Function `main` from `logparser.go`, instrumented: check the positional-argument
count, load the reporter config, create the reporter, read the log file —
each failure is fatal, in that order — then parse and print. -/
def mainRunT (env : Env) : MainOutcome × Trace :=
  if env.nargs ≠ 1 then
    (MainOutcome.usageExit 1, ⟨0, 0, 0, 0, 0⟩)
  else
    match loadReporterConfigT env with
    | (Except.error _, lc) => (MainOutcome.fatal 1 "failed to load config", ⟨lc, 0, 0, 0, 0⟩)
    | (Except.ok cfg, lc) =>
      match env.newReporter cfg with
      | Except.error _ => (MainOutcome.fatal 1 "failed to create reporter", ⟨lc, 1, 0, 0, 0⟩)
      | Except.ok reporter =>
        match env.readFile with
        | Except.error _ => (MainOutcome.fatal 1 "failed to read log file", ⟨lc, 1, 1, 0, 0⟩)
        | Except.ok logData =>
          let out := runMain env.flags.json env.flags.all reporter logData
          (MainOutcome.ran out.1, ⟨lc, 1, 1, 1, if out.2 then 1 else 0⟩)

/-- Function `main` from `logparser.go`: the outcome alone. -/
def mainRun (env : Env) : MainOutcome :=
  (mainRunT env).1

/-! ## Sample values used by the witness theorems -/

/-- A concrete report exercising every optional field. -/
def sampleReport : Report :=
  { title := "KASAN: use-after-free in foo"
    altTitles := ["KASAN: use-after-free"]
    type_ := "KASAN"
    frame := "foo"
    startPos := 10
    endPos := 90
    skipPos := 95
    suppressed := false
    corrupted := true
    corruptedReason := "no stack trace"
    executor := some { info := "proc 3" }
    report := "BUG: body".toList }

/-- A concrete report with every optional field absent and a body that does
not end in a newline. -/
def bareReport : Report :=
  { title := "kernel panic"
    altTitles := []
    type_ := "UNKNOWN"
    frame := ""
    startPos := 0
    endPos := 5
    skipPos := 6
    suppressed := true
    corrupted := false
    corruptedReason := ""
    executor := none
    report := "panic".toList }

/-- A reporter that finds `sampleReport` at offset 0 and nothing after it. -/
def sampleReporter : Reporter :=
  { parseFrom := fun _ pos => if pos = 0 then some sampleReport else none
    suppress := fun _ => false }

/-- A reporter that never finds a report and whose whole-buffer suppression
check always matches. -/
def noneReporter : Reporter :=
  { parseFrom := fun _ _ => none
    suppress := fun _ => true }

/-! ## C1: single-report versus `-all` parsing -/

/-- C1: without `-all`, `parseReports` returns the single result of
`reporter.Parse` (or the empty sequence when it yields none); with `-all` it
returns the full `report.ParseAll` sequence; and on every buffer the
single-report behavior returns exactly the first report of that sequence. -/
theorem parseReports_single_takes_first (rep : Reporter) (logData : List Char) :
    parseReports false rep logData =
      (match rep.Parse logData with
       | some r => [r]
       | none => []) ∧
    parseReports true rep logData = ParseAll rep logData ∧
    parseReports false rep logData = (ParseAll rep logData).take 1 := by
  refine ⟨by simp [parseReports], by simp [parseReports], ?_⟩
  unfold parseReports ParseAll parseAllAux
  cases h : rep.parseFrom logData 0 <;> simp [Reporter.Parse, h]

/-! ## C8: flag defaults -/

/-- C8: whatever the host architecture, the `-os` flag defaults to the
reference OS constant `targets.Linux` and the `-arch` flag defaults to the
host architecture `runtime.GOARCH`. -/
theorem defaultFlags_os_arch (hostArch : String) :
    (defaultFlags hostArch).os = targetsLinux ∧
    (defaultFlags hostArch).arch = hostArch ∧
    targetsLinux = "linux" :=
  ⟨rfl, rfl, rfl⟩

/-! ## C10: the last-byte access in `printHuman` is always in bounds -/

/-- C10: the body section of `printHuman` reads `body[len(body)-1]` only on
the non-empty branch, so the checked rendering never signals an
out-of-bounds access, and the empty branch prints `(empty report body)`
without any access. -/
theorem bodySectionChecked_never_panics :
    (∀ body : List Char, (bodySectionChecked body).isSome = true) ∧
    bodySectionChecked [] = some "(empty report body)\n" ∧
    (∀ body : List Char, bodySectionChecked body = some (bodySection body)) := by
  have hsome : ∀ body : List Char, (bodySectionChecked body).isSome = true := by
    intro body
    unfold bodySectionChecked
    rcases body with _ | ⟨c, rest⟩
    · simp
    · have hlt : (c :: rest).length - 1 < (c :: rest).length := by
        simp [List.length_cons]
      have := List.get?_eq_get (l := c :: rest) hlt
      simp only [List.length_cons] at this ⊢
      simp [this]
  refine ⟨hsome, rfl, ?_⟩
  intro body
  have h := hsome body
  unfold bodySection
  rcases hb : bodySectionChecked body with _ | s
  · rw [hb] at h; simp at h
  · simp

/-! ## C3: the zero-report, non-JSON path -/

/-- C3: when zero reports are parsed and JSON mode is off, the output is
exactly the no-reports line, followed by the note line if and only if the
whole-buffer check `report.IsSuppressed` matches; and that check is invoked
on exactly this zero-report, non-JSON path. -/
theorem no_reports_message (json all : Bool) (rep : Reporter) (logData : List Char) :
    ((runMain json all rep logData).2 = true ↔
      (parseReports all rep logData = [] ∧ json = false)) ∧
    (parseReports all rep logData = [] → json = false →
      (runMain json all rep logData).1 =
        "no crash reports found in log\n" ++
          (if IsSuppressed rep logData then
            "note: log matched suppression patterns for this target\n"
          else "")) := by
  cases hj : json <;> rcases hr : parseReports all rep logData with _ | ⟨r, rs⟩ <;>
    simp [runMain, hr, hj]

/-- Witness for C3 at a reporter that finds nothing and whose suppression
check matches on the empty buffer. -/
theorem no_reports_message_witness :
    parseReports false noneReporter [] = [] ∧
    ((runMain false false noneReporter []).2 = true ↔
      (parseReports false noneReporter [] = [] ∧ false = false)) ∧
    (runMain false false noneReporter []).1 =
      "no crash reports found in log\nnote: log matched suppression patterns for this target\n" := by
  have h := no_reports_message false false noneReporter []
  refine ⟨rfl, h.1, ?_⟩
  rw [h.2 rfl rfl]
  rfl

/-! ## C6: exactly one positional argument -/

/-- An invocation with no positional argument (and arbitrary failing
external calls, which it never reaches). -/
def badArgsEnv : Env :=
  { nargs := 0
    flags := defaultFlags "amd64"
    loadFile := fun _ => Except.error "open: no such file"
    targetsGet := fun _ _ => none
    newReporter := fun _ => Except.error "unsupported"
    readFile := Except.error "no file" }

/-- C6: whenever the positional-argument count is not 1, `main` prints the
usage text and exits with code 1, with none of the config-loading,
reporter-construction, file-reading or parsing steps performed. -/
theorem usage_on_wrong_argc (env : Env) (h : env.nargs ≠ 1) :
    mainRunT env = (MainOutcome.usageExit 1, ⟨0, 0, 0, 0, 0⟩) := by
  simp [mainRunT, h]

/-- Witness for C6 at an invocation with zero positional arguments. -/
theorem usage_on_wrong_argc_witness :
    badArgsEnv.nargs ≠ 1 ∧
    mainRunT badArgsEnv = (MainOutcome.usageExit 1, ⟨0, 0, 0, 0, 0⟩) :=
  ⟨by decide, usage_on_wrong_argc badArgsEnv (by decide)⟩

/-! ## C7: configuration and I/O errors are fatal -/

/-- C7: an unloadable settings file, an OS/VM-architecture pair unknown to
the target registry, and an unreadable log file are each fatal — `main`
exits with the non-zero code 1 after calling the failing step exactly once —
and the unknown target is detected while building the reporter
configuration, with the parse machinery never invoked on any of these
paths. -/
theorem fatal_config_and_io_errors (env : Env) :
    (∀ e, env.nargs = 1 → env.flags.config ≠ "" →
      env.loadFile env.flags.config = Except.error e →
      mainRunT env = (MainOutcome.fatal 1 "failed to load config", ⟨1, 0, 0, 0, 0⟩)) ∧
    (env.nargs = 1 → env.flags.config = "" →
      env.targetsGet env.flags.os env.flags.arch = none →
      mainRunT env = (MainOutcome.fatal 1 "failed to load config", ⟨0, 0, 0, 0, 0⟩)) ∧
    (∀ e cfg rep lc, env.nargs = 1 →
      loadReporterConfigT env = (Except.ok cfg, lc) →
      env.newReporter cfg = Except.ok rep →
      env.readFile = Except.error e →
      mainRunT env = (MainOutcome.fatal 1 "failed to read log file", ⟨lc, 1, 1, 0, 0⟩)) := by
  refine ⟨?_, ?_, ?_⟩
  · intro e h1 hc hl
    simp [mainRunT, h1, loadReporterConfigT, hc, hl]
  · intro h1 hc hg
    simp [mainRunT, h1, loadReporterConfigT, hc, defaultMgrConfig, resolveTarget, hg]
  · intro e cfg rep lc h1 hT hrep hread
    simp [mainRunT, h1, hT, hrep, hread]

/-- An invocation whose settings file cannot be loaded. -/
def loadErrEnv : Env :=
  { nargs := 1
    flags := { os := "linux", arch := "amd64", config := "mgr.cfg", json := false, all := false }
    loadFile := fun _ => Except.error "bad json"
    targetsGet := fun _ _ => some { name := "linux/amd64" }
    newReporter := fun _ => Except.ok noneReporter
    readFile := Except.ok [] }

/-- An invocation naming an OS/architecture pair the registry does not
know. -/
def badTargetEnv : Env :=
  { nargs := 1
    flags := { os := "plan9", arch := "amd64", config := "", json := false, all := false }
    loadFile := fun _ => Except.error "unused"
    targetsGet := fun _ _ => none
    newReporter := fun _ => Except.ok noneReporter
    readFile := Except.ok [] }

/-- An invocation whose log file cannot be read. -/
def readErrEnv : Env :=
  { nargs := 1
    flags := { os := "linux", arch := "amd64", config := "", json := false, all := false }
    loadFile := fun _ => Except.error "unused"
    targetsGet := fun _ _ => some { name := "linux/amd64" }
    newReporter := fun _ => Except.ok noneReporter
    readFile := Except.error "permission denied" }

/-- Witness for C7 on all three fatal paths. -/
theorem fatal_config_and_io_errors_witness :
    mainRunT loadErrEnv = (MainOutcome.fatal 1 "failed to load config", ⟨1, 0, 0, 0, 0⟩) ∧
    mainRunT badTargetEnv = (MainOutcome.fatal 1 "failed to load config", ⟨0, 0, 0, 0, 0⟩) ∧
    mainRunT readErrEnv = (MainOutcome.fatal 1 "failed to read log file", ⟨0, 1, 1, 0, 0⟩) :=
  ⟨(fatal_config_and_io_errors loadErrEnv).1 "bad json" rfl (by decide) rfl,
   (fatal_config_and_io_errors badTargetEnv).2.1 rfl rfl rfl,
   (fatal_config_and_io_errors readErrEnv).2.2 "permission denied"
     { rawTarget := "linux/amd64", targetOS := "linux", targetArch := "amd64",
       targetVMArch := "amd64", sysTarget := { name := "linux/amd64" } }
     noneReporter 0 rfl rfl rfl rfl⟩

/-! ## C9: the raw-target override in `loadReporterConfig` -/

/-- C9: when the settings file loaded via `-config` carries a raw target
that is non-empty and has at least two `/`-separated parts, the derived
config uses the first part as target OS, the second as VM architecture and
the last as execution architecture; otherwise the `-os` and `-arch` flag
values are used for all three. -/
theorem loadReporterConfig_raw_target (env : Env) (cfg : MgrConfig) (st : SysTarget)
    (hc : env.flags.config ≠ "")
    (hl : env.loadFile env.flags.config = Except.ok cfg) :
    (∀ parts, parts = goSplit cfg.rawTarget '/' → cfg.rawTarget ≠ "" →
      2 ≤ parts.length →
      env.targetsGet (parts.getD 0 "") (parts.getD 1 "") = some st →
      ∃ out, loadReporterConfig env = Except.ok out ∧
        out.targetOS = parts.getD 0 "" ∧
        out.targetVMArch = parts.getD 1 "" ∧
        out.targetArch = parts.getD (parts.length - 1) "") ∧
    ((cfg.rawTarget = "" ∨ (goSplit cfg.rawTarget '/').length < 2) →
      env.targetsGet env.flags.os env.flags.arch = some st →
      ∃ out, loadReporterConfig env = Except.ok out ∧
        out.targetOS = env.flags.os ∧
        out.targetVMArch = env.flags.arch ∧
        out.targetArch = env.flags.arch) := by
  constructor
  · intro parts hp hraw hlen hg
    subst hp
    set parts := goSplit cfg.rawTarget '/' with hparts
    have heq : loadReporterConfig env = Except.ok
        { rawTarget := parts.getD 0 "" ++ "/" ++ parts.getD 1 ""
          targetOS := parts.getD 0 ""
          targetArch := parts.getD (parts.length - 1) ""
          targetVMArch := parts.getD 1 ""
          sysTarget := st } := by
      simp only [loadReporterConfig, loadReporterConfigT, if_pos hc, hl,
        resolveTarget, if_pos hraw, ← hparts, if_pos hlen, hg]
    exact ⟨_, heq, rfl, rfl, rfl⟩
  · intro hor hg
    have hres : resolveTarget env.flags.os env.flags.arch cfg.rawTarget =
        (env.flags.os, env.flags.arch, env.flags.arch) := by
      rcases hor with hr | hlt
      · simp [resolveTarget, hr]
      · by_cases hr : cfg.rawTarget = ""
        · simp [resolveTarget, hr]
        · simp only [resolveTarget, if_pos hr]
          rw [if_neg (by omega)]
    have heq : loadReporterConfig env = Except.ok
        { rawTarget := env.flags.os ++ "/" ++ env.flags.arch
          targetOS := env.flags.os
          targetArch := env.flags.arch
          targetVMArch := env.flags.arch
          sysTarget := st } := by
      simp only [loadReporterConfig, loadReporterConfigT, if_pos hc, hl, hres, hg]
    exact ⟨_, heq, rfl, rfl, rfl⟩

/-- An invocation whose settings file carries the raw target
`linux/arm64/amd64`. -/
def rawTargetEnv : Env :=
  { nargs := 1
    flags := { os := "freebsd", arch := "386", config := "mgr.cfg", json := false, all := false }
    loadFile := fun _ => Except.ok { rawTarget := "linux/arm64/amd64" }
    targetsGet := fun _ _ => some { name := "linux/arm64" }
    newReporter := fun _ => Except.ok noneReporter
    readFile := Except.ok [] }

/-- Witness for C9: a three-part raw target overrides the `-os`/`-arch`
flags with its first, second and last parts. -/
theorem loadReporterConfig_raw_target_witness :
    ∃ out, loadReporterConfig rawTargetEnv = Except.ok out ∧
      out.targetOS = (goSplit "linux/arm64/amd64" '/').getD 0 "" ∧
      out.targetVMArch = (goSplit "linux/arm64/amd64" '/').getD 1 "" ∧
      out.targetArch = (goSplit "linux/arm64/amd64" '/').getD
        ((goSplit "linux/arm64/amd64" '/').length - 1) "" :=
  (loadReporterConfig_raw_target rawTargetEnv { rawTarget := "linux/arm64/amd64" }
      { name := "linux/arm64" } (by decide) rfl).1
    (goSplit "linux/arm64/amd64" '/') rfl (by decide) (by decide) rfl

/-! ## C2: the JSON field set of a serialized report -/

/-- The twelve JSON field names of `serializedReport`, in struct declaration
order. -/
def jsonFieldOrder : List String :=
  ["title", "alt_titles", "type", "frame", "start_pos", "end_pos", "skip_pos",
   "suppressed", "corrupted", "corrupted_reason", "executor", "report"]

/-- C2: for every non-empty report sequence the JSON output is an array with
one object per report; each object's field names form a subsequence of the
twelve declared names, the eight unconditional fields are always present
with their report's values — `report` carrying the body as text — and
`alt_titles`, `frame`, `corrupted_reason` and `executor` are present exactly
when non-empty (respectively: present). -/
theorem serializedReport_fields (reports : List Report) (hne : reports ≠ []) :
    (emitJSONValue reports = JVal.arr (reports.map fun r => JVal.obj (serializeReport r)) ∧
      (reports.map fun r => JVal.obj (serializeReport r)).length = reports.length) ∧
    ∀ r ∈ reports,
      ((serializeReport r).map Prod.fst).Sublist jsonFieldOrder ∧
      ("title", JVal.str r.title) ∈ serializeReport r ∧
      ("type", JVal.str r.type_) ∈ serializeReport r ∧
      ("start_pos", JVal.int r.startPos) ∈ serializeReport r ∧
      ("end_pos", JVal.int r.endPos) ∈ serializeReport r ∧
      ("skip_pos", JVal.int r.skipPos) ∈ serializeReport r ∧
      ("suppressed", JVal.bool r.suppressed) ∈ serializeReport r ∧
      ("corrupted", JVal.bool r.corrupted) ∈ serializeReport r ∧
      ("report", JVal.str (String.mk r.report)) ∈ serializeReport r ∧
      (("alt_titles" ∈ (serializeReport r).map Prod.fst) ↔ r.altTitles ≠ []) ∧
      (("frame" ∈ (serializeReport r).map Prod.fst) ↔ r.frame ≠ "") ∧
      (("corrupted_reason" ∈ (serializeReport r).map Prod.fst) ↔ r.corruptedReason ≠ "") ∧
      (("executor" ∈ (serializeReport r).map Prod.fst) ↔ r.executor.isSome) := by
  refine ⟨⟨rfl, by simp⟩, ?_⟩
  intro r _hr
  obtain ⟨t, ats, ty, fr, sp, ep, kp, su, co, cr, ex, bo⟩ := r
  rcases ats with _ | ⟨a, as⟩ <;> rcases ex with _ | e <;>
    by_cases hfr : fr = "" <;> by_cases hcr : cr = "" <;>
      simp [serializeReport, hfr, hcr, jsonFieldOrder] <;>
        decide

/-- Witness for C2 at a two-report sequence: the report with an executor
carries the `executor` field, the bare report omits `frame`. -/
theorem serializedReport_fields_witness :
    ([sampleReport, bareReport] : List Report) ≠ [] ∧
    (("executor" ∈ (serializeReport sampleReport).map Prod.fst) ↔
      sampleReport.executor.isSome) ∧
    (("frame" ∈ (serializeReport bareReport).map Prod.fst) ↔ bareReport.frame ≠ "") := by
  have h := serializedReport_fields [sampleReport, bareReport] (by simp)
  have h1 := h.2 sampleReport (by simp)
  have h2 := h.2 bareReport (by simp)
  obtain ⟨-, -, -, -, -, -, -, -, -, -, -, -, hExec⟩ := h1
  obtain ⟨-, -, -, -, -, -, -, -, -, -, hFrame, -, -⟩ := h2
  exact ⟨by simp, hExec, hFrame⟩

/-! ## C4: JSON mode — empty `[]` and two-space indentation -/

/-- Rendering a non-empty array whose first element is an object with first
member `title`, with prefix `""` and indent `"  "`, yields output whose
array elements are indented by one two-space step and whose object members
by two. -/
theorem renderArr_title_prefix (x : JVal) (fs : List (String × JVal)) (xs : List JVal) :
    ∃ rest, renderArr "" "  " 0 (JVal.obj (("title", x) :: fs) :: xs) =
      "[\n  \x7b\n    \"title\": " ++ rest := by
  refine ⟨renderJ "" "  " 2 x ++ renderObjTail "" "  " 2 fs ++ "\n" ++ indentAt "" "  " 1 ++
    "\x7d" ++ renderArrTail "" "  " 1 xs ++ "\n" ++ indentAt "" "  " 0 ++ "]", ?_⟩
  simp only [renderArr, renderJ, renderObj]
  rw [show indentAt "" "  " 1 = "  " from rfl, show indentAt "" "  " 2 = "    " from rfl,
    show indentAt "" "  " 0 = "" from rfl, show escapeString "title" = "title" from rfl,
    show ("[\n  \x7b\n    \"title\": " : String) =
      "[\n" ++ "  " ++ "\x7b\n" ++ "    " ++ "\"" ++ "title" ++ "\": " from rfl]
  simp only [String.append_assoc]

/-- C4: in JSON mode an empty result set prints the literal `[]` (plus the
`Fprintln` newline) and a non-empty one is the `SetIndent("", "  ")`
encoding of the report array; moreover every non-empty encoding opens with
the array bracket, a two-space-indented object brace and a four-space
indented first field. -/
theorem json_mode_output (all : Bool) (rep : Reporter) (logData : List Char) :
    (runMain true all rep logData).1 =
      (if parseReports all rep logData = [] then "[]\n"
       else renderJ "" "  " 0 (emitJSONValue (parseReports all rep logData)) ++ "\n") ∧
    (∀ reports : List Report, reports ≠ [] →
      ∃ rest, emitJSON reports = "[\n  \x7b\n    \"title\": " ++ rest) := by
  constructor
  · rcases hr : parseReports all rep logData with _ | ⟨r, rs⟩ <;>
      simp [runMain, hr, emitJSON]
  · rintro (_ | ⟨r, rs⟩) hne
    · exact absurd rfl hne
    · obtain ⟨rest, hrest⟩ :=
        renderArr_title_prefix (JVal.str r.title) (serializeReport r).tail
          (rs.map fun q => JVal.obj (serializeReport q))
      refine ⟨rest ++ "\n", ?_⟩
      show renderJ "" "  " 0
          (JVal.arr (JVal.obj (serializeReport r) :: rs.map fun q => JVal.obj (serializeReport q)))
          ++ "\n" = _
      rw [show (serializeReport r) = ("title", JVal.str r.title) :: (serializeReport r).tail
        from rfl]
      simp only [renderJ]
      rw [hrest, String.append_assoc]

/-- Witness for C4 at a one-report sequence. -/
theorem json_mode_output_witness :
    ([bareReport] : List Report) ≠ [] ∧
    ∃ rest, emitJSON [bareReport] = "[\n  \x7b\n    \"title\": " ++ rest :=
  ⟨by simp, (json_mode_output false noneReporter []).2 [bareReport] (by simp)⟩

/-! ## C5: structure of the human-readable output -/

/-- Blocks separated by a divider, as the spec words it: the concatenation
of the blocks with `sep` between consecutive blocks and nowhere else. -/
def joinSep (sep : String) : List String → String
  | [] => ""
  | [x] => x
  | x :: y :: t => x ++ sep ++ joinSep sep (y :: t)

/-- Unfolding of one step of the `printHuman` loop. -/
theorem printHumanAux_cons (idx total : Nat) (r : Report) (rs : List Report) :
    printHumanAux idx total (r :: rs) =
      humanBlock idx r ++ (if idx + 1 < total then "\n---\n\n" else "") ++
        printHumanAux (idx + 1) total rs := rfl

/-- The indexed loop of `printHuman` produces exactly the blocks joined by
the `---` divider. -/
theorem printHumanAux_joinSep (rs : List Report) : ∀ idx total, idx + rs.length = total →
    printHumanAux idx total rs =
      joinSep "\n---\n\n" ((List.enumFrom idx rs).map fun p => humanBlock p.1 p.2) := by
  induction rs with
  | nil => intro idx total h; rfl
  | cons r rs ih =>
    intro idx total h
    rcases rs with _ | ⟨r2, rs2⟩
    · have hnlt : ¬(idx + 1 < total) := by
        simp only [List.length_cons, List.length_nil] at h
        omega
      simp [printHumanAux, hnlt, joinSep, List.enumFrom, String.append_empty]
    · have hlt : idx + 1 < total := by
        simp only [List.length_cons] at h
        omega
      have hrec : (idx + 1) + (r2 :: rs2).length = total := by
        simp only [List.length_cons] at h ⊢
        omega
      rw [printHumanAux_cons, if_pos hlt, ih (idx + 1) total hrec]
      simp [joinSep, List.enumFrom, List.map_cons]

/-- The first block of `printHuman` is numbered `Crash #1`. -/
theorem humanBlock_zero_prefix (r : Report) :
    ∃ rest, humanBlock 0 r = "Crash #1\n" ++ rest := by
  refine ⟨"Title: " ++ r.title ++ "\n" ++
    "Type: " ++ r.type_ ++ "\n" ++
    (if 0 < r.altTitles.length then
      "Alt titles: " ++ String.intercalate ", " r.altTitles ++ "\n" else "") ++
    (if r.frame ≠ "" then "Frame: " ++ r.frame ++ "\n" else "") ++
    "Range: [" ++ toString r.startPos ++ ", " ++ toString r.endPos ++ "], next " ++
      toString r.skipPos ++ "\n" ++
    "Suppressed: " ++ (if r.suppressed then "true" else "false") ++ "\n" ++
    "Corrupted: " ++ (if r.corrupted then "true" else "false") ++
    (if r.corruptedReason ≠ "" then " (" ++ r.corruptedReason ++ ")" else "") ++
    "\n\n" ++ bodySection r.report, ?_⟩
  unfold humanBlock
  rw [show toString (0 + 1) = "1" from rfl,
    show ("Crash #1\n" : String) = "Crash #" ++ "1" ++ "\n" from rfl]
  simp only [String.append_assoc]

/-- C5: `printHuman` emits the `Crash #N` blocks (numbered from 1) joined by
the `---` divider between consecutive blocks only; within a block the body
follows the labeled field lines, with a newline appended when the body's
last byte is not a newline, unchanged when it is, and the text
`(empty report body)` in place of an empty body. -/
theorem printHuman_structure :
    (∀ reports : List Report, printHuman reports =
      joinSep "\n---\n\n" ((List.enumFrom 0 reports).map fun p => humanBlock p.1 p.2)) ∧
    (∀ r : Report, ∀ rs : List Report, ∃ rest, printHuman (r :: rs) = "Crash #1\n" ++ rest) ∧
    (∀ body : List Char, ∀ c : Char, body.getLast? = some c → c ≠ '\n' →
      bodySection body = String.mk body ++ "\n") ∧
    (∀ body : List Char, body.getLast? = some '\n' → bodySection body = String.mk body) ∧
    bodySection [] = "(empty report body)\n" := by
  have hlastD : ∀ (body : List Char) (c : Char), body.getLast? = some c →
      body[body.length - 1]? = some c := by
    intro body c hl
    rw [← List.getLast?_eq_getElem?]
    exact hl
  have hlenD : ∀ (body : List Char) (c : Char), body.getLast? = some c →
      ¬ body.length = 0 := by
    intro body c hl
    rintro hlen
    rw [List.length_eq_zero] at hlen
    subst hlen
    simp at hl
  refine ⟨?_, ?_, ?_, ?_, rfl⟩
  · intro reports
    exact printHumanAux_joinSep reports 0 reports.length (by omega)
  · intro r rs
    obtain ⟨rest0, h0⟩ := humanBlock_zero_prefix r
    refine ⟨rest0 ++ ((if 0 + 1 < (r :: rs).length then "\n---\n\n" else "") ++
      printHumanAux (0 + 1) (r :: rs).length rs), ?_⟩
    simp only [printHuman, printHumanAux]
    rw [h0]
    simp only [String.append_assoc]
  · intro body c hlast hne
    simp [bodySection, bodySectionChecked, hlenD body c hlast, hlastD body c hlast, hne]
  · intro body hlast
    simp [bodySection, bodySectionChecked, hlenD body '\n' hlast, hlastD body '\n' hlast,
      String.append_empty]

/-- Witness for C5 at a body ending without a newline and one ending with
one. -/
theorem printHuman_structure_witness :
    ("panic".toList.getLast? = some 'c') ∧
    bodySection "panic".toList = String.mk "panic".toList ++ "\n" ∧
    ("oops\n".toList.getLast? = some '\n') ∧
    bodySection "oops\n".toList = String.mk "oops\n".toList := by
  have h := printHuman_structure
  exact ⟨by decide, h.2.2.1 "panic".toList 'c' (by decide) (by decide), by decide,
    h.2.2.2.1 "oops\n".toList (by decide)⟩
